import Mathlib

/-!
Verification of the Data-Analyst-Agent repository (src/agent.py, src/main.py).

The development shallowly embeds the pieces of the program that the claims
are about:

* `convertToNativeTypes` embeds `DataAnalystAgent._convert_to_native_types`
  (agent.py lines 40-51) over an inductive model `PyVal` of Python values.
* `extractCode` embeds the fenced-code-block extraction of
  `DataAnalystAgent.run` (agent.py lines 81-82), faithfully modelling
  Python `str.split` over lists of characters.
* `sanitize` embeds the `re.sub` filename sanitization (agent.py line 131).
* `createExecutionScope` embeds `DataAnalystAgent._create_execution_scope`
  (agent.py lines 143-153); Python dicts are modelled as association
  lists with insertion-order preserving assignment (`dictInsert`).
* `processFile` / `prepareCtx` / `finalPos` embed
  `DataAnalystAgent._prepare_file_context` (agent.py lines 123-141),
  including the stream position handled by `read()` / `seek(0)`.
* `loopFrom` embeds the retry loop of `DataAnalystAgent.run`
  (agent.py lines 71-121).  The external model service and the effect of
  `exec` on the scope are inherently non-deterministic, so they are
  modelled as an attempt-indexed oracle (`AttemptEnv`): per attempt, the
  oracle gives the model response (or the trace of a raised exception)
  and, given the extracted script and execution scope, the value bound to
  `result` afterwards (or the trace of the raised exception).  The prompt
  strings built on lines 59-67 and 105-119 only influence the external
  model, which the oracle absorbs, so their text is not re-modelled.
* `analyzeData` embeds the `analyze_data` handler (main.py lines 17-70);
  UTF-8 decoding of the question bytes is an oracle parameter.
-/

/-- Model of a Python runtime value as far as `_convert_to_native_types`
can observe it.  Numeric payloads of floating scalars are carried as their
64-bit pattern (a `Nat`), which the conversion never inspects; Python dict
keys are modelled as strings (the JSON-bound results use string keys);
`other` stands for any object of a type not listed (DataFrames, ndarrays,
sets, ...), which the conversion returns unchanged. -/
inductive PyVal where
  | pyInt (n : Int)
  | pyFloat (bits : Nat)
  | pyBool (b : Bool)
  | pyStr (s : String)
  | pyNone
  | npInt (n : Int)
  | npFloat (bits : Nat)
  | npBool (b : Bool)
  | pyList (xs : List PyVal)
  | pyDict (es : List (String × PyVal))
  | pyTuple (xs : List PyVal)
  | other (tag : String)

mutual

/-- Embeds `DataAnalystAgent._convert_to_native_types` (agent.py 40-51):
lists and dict values are converted recursively, `np.integer` /
`np.floating` / `np.bool_` scalars become native `int` / `float` / `bool`,
and any other value (including tuples) is returned unchanged. -/
def convertToNativeTypes : PyVal → PyVal
  | PyVal.pyList xs => PyVal.pyList (convList xs)
  | PyVal.pyDict es => PyVal.pyDict (convEntries es)
  | PyVal.npInt n => PyVal.pyInt n
  | PyVal.npFloat b => PyVal.pyFloat b
  | PyVal.npBool b => PyVal.pyBool b
  | v => v

/-- Element-wise conversion of a Python list (agent.py line 42). -/
def convList : List PyVal → List PyVal
  | [] => []
  | x :: xs => convertToNativeTypes x :: convList xs

/-- Value-wise conversion of a Python dict (agent.py line 44). -/
def convEntries : List (String × PyVal) → List (String × PyVal)
  | [] => []
  | (k, v) :: es => (k, convertToNativeTypes v) :: convEntries es

end

mutual

/-- `npFree v` holds when no numpy scalar (`npInt`/`npFloat`/`npBool`)
occurs anywhere inside `v` (descending through lists, tuples and dict
values). -/
def npFree : PyVal → Bool
  | PyVal.npInt _ => false
  | PyVal.npFloat _ => false
  | PyVal.npBool _ => false
  | PyVal.pyList xs => npFreeList xs
  | PyVal.pyTuple xs => npFreeList xs
  | PyVal.pyDict es => npFreeEntries es
  | _ => true

def npFreeList : List PyVal → Bool
  | [] => true
  | x :: xs => npFree x && npFreeList xs

def npFreeEntries : List (String × PyVal) → Bool
  | [] => true
  | (_, v) :: es => npFree v && npFreeEntries es

end

mutual

/-- `plainOnly v` holds when `v` is built only from the scalar
constructors and from lists and string-keyed dicts — i.e. the containers
`_convert_to_native_types` actually recurses into (no tuples, no opaque
objects). -/
def plainOnly : PyVal → Bool
  | PyVal.pyList xs => plainOnlyList xs
  | PyVal.pyDict es => plainOnlyEntries es
  | PyVal.pyTuple _ => false
  | PyVal.other _ => false
  | _ => true

def plainOnlyList : List PyVal → Bool
  | [] => true
  | x :: xs => plainOnly x && plainOnlyList xs

def plainOnlyEntries : List (String × PyVal) → Bool
  | [] => true
  | (_, v) :: es => plainOnly v && plainOnlyEntries es

end

/-- `headMatches pat s` is true when `pat` is an initial segment of `s`
(character-wise); the building block for the Python substring operations
used on agent.py lines 81-82 and 132. -/
def headMatches : List Char → List Char → Bool
  | [], _ => true
  | _ :: _, [] => false
  | a :: as, b :: bs => a == b && headMatches as bs

/-- `occursIn pat s` is Python's `pat in s` substring test
(agent.py line 81). -/
def occursIn (pat : List Char) : List Char → Bool
  | [] => headMatches pat []
  | b :: bs => headMatches pat (b :: bs) || occursIn pat bs

/-- `splitFirst pat s` returns `some (before, after)` for the first
occurrence of `pat` in `s` (the text before it and the text after it), and
`none` when `pat` does not occur; this is the scanning step of Python's
`str.split`. -/
def splitFirst (pat : List Char) : List Char → Option (List Char × List Char)
  | [] => if headMatches pat [] then some ([], []) else none
  | b :: bs =>
    if headMatches pat (b :: bs) then some ([], (b :: bs).drop pat.length)
    else
      match splitFirst pat bs with
      | some (h, t) => some (b :: h, t)
      | none => none

/-- `takeUntil pat s` is Python's `s.split(pat)[0]`: the text before the
first occurrence of `pat`, or all of `s` when `pat` does not occur. -/
def takeUntil (pat : List Char) (s : List Char) : List Char :=
  match splitFirst pat s with
  | none => s
  | some (h, _) => h

/-- The marker tested by `"```python" in generated_code` (agent.py 81). -/
def fenceMark : List Char := "```python".toList

/-- The separator of the first split on agent.py line 82. -/
def fenceMarkNl : List Char := "```python\n".toList

/-- The separator of the second split on agent.py line 82. -/
def fenceClose : List Char := "\n```".toList

/-- Embeds the script-body extraction of agent.py lines 81-82:
`generated_code.split("```python\n")[1].split("\n```")[0]` guarded by
`if "```python" in generated_code`.  Returns `none` when the indexing
`[1]` raises `IndexError` (marker present, but `"```python\n"` absent),
which the surrounding `try` turns into a failed attempt. -/
def extractCode (resp : String) : Option String :=
  if occursIn fenceMark resp.toList then
    match splitFirst fenceMarkNl resp.toList with
    | none => none
    | some (_, rest) =>
      some (String.mk (takeUntil fenceClose (takeUntil fenceMarkNl rest)))
  else some resp

/-- The character class `[a-zA-Z0-9_]` of the regex on agent.py 131. -/
def isWordChar (c : Char) : Bool := c.isAlpha || c.isDigit || c == '_'

/-- One character step of `re.sub(r'[^a-zA-Z0-9_]', '_', ...)`. -/
def sanitizeChar (c : Char) : Char := if isWordChar c then c else '_'

/-- Embeds the variable-name derivation of agent.py line 131: every
character outside `[a-zA-Z0-9_]` is replaced by `'_'`. -/
def sanitize (filename : String) : String :=
  String.mk (filename.toList.map sanitizeChar)

/-- An abstract pandas DataFrame: the parsed form of delimited tabular
data.  Its contents are irrelevant to every claim. -/
structure Table where
  cells : List (List String)
deriving DecidableEq

/-- A value bound in the execution scope handed to `exec`
(agent.py 143-153): one of the fixed capability bindings (`lib`, named by
what is imported), a DataFrame parsed from a `.csv` upload, a `BytesIO`
buffer of raw bytes, or the `None` pre-seeded under `result`. -/
inductive ScopeVal where
  | lib (name : String)
  | table (t : Table)
  | buffer (bytes : List Nat)
  | pyNone
deriving DecidableEq

/-- Python dict assignment `d[k] = v`: replaces the value in place when
the key exists (insertion order preserved), appends otherwise. -/
def dictInsert (d : List (String × ScopeVal)) (k : String) (v : ScopeVal) :
    List (String × ScopeVal) :=
  match d with
  | [] => [(k, v)]
  | (k₀, v₀) :: rest =>
    if k₀ = k then (k, v) :: rest else (k₀, v₀) :: dictInsert rest k v

/-- Python dict lookup `d.get(k)` (keys are unique in a dict built by
`dictInsert`, so the first match is the binding). -/
def dictGet (d : List (String × ScopeVal)) (k : String) : Option ScopeVal :=
  match d with
  | [] => none
  | (k₀, v₀) :: rest => if k₀ = k then some v₀ else dictGet rest k

/-- Python's `scope.update(entries)`: assign every entry of `entries`
into `scope` in order (agent.py line 152). -/
def updateDict (d : List (String × ScopeVal))
    (entries : List (String × ScopeVal)) : List (String × ScopeVal) :=
  entries.foldl (fun acc kv => dictInsert acc kv.1 kv.2) d

/-- The fixed scope dict literal of agent.py lines 145-151: the ten
capability bindings plus `result` pre-seeded to `None`. -/
def baseScope : List (String × ScopeVal) :=
  [("pd", ScopeVal.lib "pandas"),
   ("np", ScopeVal.lib "numpy"),
   ("plt", ScopeVal.lib "matplotlib.pyplot"),
   ("sns", ScopeVal.lib "seaborn"),
   ("duckdb", ScopeVal.lib "duckdb"),
   ("requests", ScopeVal.lib "requests"),
   ("BeautifulSoup", ScopeVal.lib "bs4.BeautifulSoup"),
   ("io", ScopeVal.lib "io"),
   ("base64", ScopeVal.lib "base64"),
   ("re", ScopeVal.lib "re"),
   ("result", ScopeVal.pyNone)]

/-- Embeds `DataAnalystAgent._create_execution_scope` (agent.py 143-153):
the fixed dict literal updated with the file-context entries. -/
def createExecutionScope (fileContext : List (String × ScopeVal)) :
    List (String × ScopeVal) :=
  updateDict baseScope fileContext

/-- An uploaded file as the agent sees it: a filename, the underlying
byte content, and the current read position of the stream.  `read()`
returns `content.drop pos` and leaves the position at `content.length`;
`seek(0)` resets it to `0`. -/
structure UFile where
  filename : String
  content : List Nat
  pos : Nat
deriving DecidableEq

/-- Python's `filename.endswith('.csv')` (agent.py line 132), computed as
a reversed head-match so that it evaluates by `rfl`. -/
def hasCsvSuffix (s : String) : Bool :=
  headMatches ".csv".toList.reverse s.toList.reverse

/-- Embeds the body of the per-file `try` block of
`_prepare_file_context` (agent.py 130-140) for one file, parametrised by
the `pd.read_csv` behaviour (`parse`, an oracle: pandas is external).
Returns the context entry this file contributes (`none` when
`pd.read_csv` raises and the `except` clause swallows the error) paired
with the final stream position: `seek(0)` runs only when no exception was
raised, so a failing parse leaves the stream at end-of-file (the
preceding `read()` consumed it). -/
def processFile (parse : List Nat → Except String Table) (f : UFile) :
    Option (String × ScopeVal) × Nat :=
  let data := f.content.drop f.pos
  if hasCsvSuffix f.filename then
    match parse data with
    | Except.ok t => (some (sanitize f.filename, ScopeVal.table t), 0)
    | Except.error _ => (none, f.content.length)
  else (some (sanitize f.filename, ScopeVal.buffer data), 0)

/-- The context update contributed by one file (agent.py 134/137):
assignment into the context dict, or nothing when the file was skipped. -/
def fileStep (parse : List Nat → Except String Table)
    (ctx : List (String × ScopeVal)) (f : UFile) : List (String × ScopeVal) :=
  match (processFile parse f).1 with
  | some (k, v) => dictInsert ctx k v
  | none => ctx

/-- Embeds `DataAnalystAgent._prepare_file_context` (agent.py 123-141):
the context dict accumulated over the uploaded files in order. -/
def prepareCtx (parse : List Nat → Except String Table)
    (files : List UFile) : List (String × ScopeVal) :=
  files.foldl (fileStep parse) []

/-- The stream position of an uploaded file after `_prepare_file_context`
ran over it (second component of `processFile`). -/
def finalPos (parse : List Nat → Except String Table) (f : UFile) : Nat :=
  (processFile parse f).2

/-- Terminal value of the loop, mirroring the dicts returned by
`DataAnalystAgent.run`: `{"status": "success", "result": ...}` or
`{"status": "error", "message": ...}`. -/
inductive RunOutcome where
  | success (result : PyVal)
  | error (message : String)

/-- What the external world does on one attempt of the loop.  `resp` is
`chat_session.send_message(...).text` — or the trace of the exception the
call raised.  `run code scope` is the effect of `exec(code, scope)`
followed by `scope.get("result")`: the value bound to `result` afterwards
(`PyVal.pyNone` when the script never set it), or the trace of the
exception `exec` raised.  Both are oracle data because the model service
and the generated scripts are external to the program. -/
structure AttemptEnv where
  resp : Except String String
  run : String → List (String × ScopeVal) → Except String PyVal

/-- Stand-in for `traceback.format_exc()` of the `IndexError` raised by
the `[1]` indexing on agent.py line 82; the exact traceback text is
environment-dependent and never inspected by the program. -/
def indexErrorTrace : String := "IndexError: list index out of range"

/-- Everything inside the `try` of one loop iteration (agent.py 77-95,
up to the successful `result` lookup): the model call, the fenced-code
extraction, scope creation and `exec`.  Produces the value bound to
`result` or the trace of the first exception. -/
def attemptExec (env : Nat → AttemptEnv) (fc : List (String × ScopeVal))
    (i : Nat) : Except String PyVal :=
  match (env i).resp with
  | Except.error t => Except.error t
  | Except.ok text =>
    match extractCode text with
    | none => Except.error indexErrorTrace
    | some code => (env i).run code (createExecutionScope fc)

/-- The fixed prefix of the terminal failure message built on
agent.py line 103. -/
def exhaustMsg (maxRetries : Nat) : String :=
  "Agent failed after " ++ toString maxRetries ++ " attempts. Last error: "

/-- Embeds the `for attempt in range(self.max_retries)` loop of
`DataAnalystAgent.run` (agent.py 71-121) from iteration `i` on, paired
with the number of loop iterations performed (instrumentation needed to
state "exactly N attempts"; the source has no such counter).  A
successful attempt returns the converted `result`; a failed final attempt
returns the exhaustion message carrying the last trace; a failed earlier
attempt continues with the next iteration; an empty range falls through
to the `return` on line 121. -/
def loopFrom (env : Nat → AttemptEnv) (maxRetries : Nat)
    (fc : List (String × ScopeVal)) (i : Nat) : RunOutcome × Nat :=
  if h : i < maxRetries then
    match attemptExec env fc i with
    | Except.ok v => (RunOutcome.success (convertToNativeTypes v), 1)
    | Except.error t =>
      if i = maxRetries - 1 then
        (RunOutcome.error (exhaustMsg maxRetries ++ t), 1)
      else
        let r := loopFrom env maxRetries fc (i + 1)
        (r.1, r.2 + 1)
  else (RunOutcome.error "Agent failed to produce a working script.", 0)
termination_by maxRetries - i
decreasing_by omega

/-- `DataAnalystAgent.run` end to end: prepare the file context once,
then run the loop from attempt 0. -/
def agentRun (env : Nat → AttemptEnv) (maxRetries : Nat)
    (parse : List Nat → Except String Table) (files : List UFile) :
    RunOutcome × Nat :=
  loopFrom env maxRetries (prepareCtx parse files) 0

/-- The form-field name the handler recognises the question under
(main.py line 36). -/
def questionFieldKey : String := "questions.txt"

/-- The `questions_txt` variable after the field scan of main.py 31-41:
the value of the last form entry whose field name is `"questions.txt"`. -/
def findQuestion (form : List (String × UFile)) : Option UFile :=
  form.foldl (fun acc kv => if kv.1 = questionFieldKey then some kv.2 else acc)
    none

/-- The `other_files` list of main.py 31-41: every form entry whose field
name is not `"questions.txt"`, in arrival order. -/
def otherFiles (form : List (String × UFile)) : List UFile :=
  (form.filter (fun kv => kv.1 != questionFieldKey)).map Prod.snd

/-- The `all_files` list handed to the agent (main.py line 47), when a
question part exists: the question file (its stream reset to the start by
the `read` + `seek(0)` on lines 51-52) prepended to the other files. -/
def handlerFiles (form : List (String × UFile)) : Option (List UFile) :=
  (findQuestion form).map (fun q => { q with pos := 0 } :: otherFiles form)

/-- An HTTP response of the handler: a 200 JSON body, or an
`HTTPException` with a status code and a detail string. -/
inductive HttpResponse where
  | ok (body : PyVal)
  | err (status : Nat) (detail : String)

/-- Embeds the `analyze_data` handler of main.py 17-70 (the request
timeout is not modelled: no claim concerns real time).  `agent` is the
loop (abstract here — its embedding is `agentRun`), `decode` is UTF-8
decoding of the question bytes (oracle: it may raise).  A 500 raised
inside the `try` block — including the `HTTPException` raised for an
agent failure on line 62 — is caught by `except Exception` on line 69 and
wrapped as `"An unexpected error occurred: " + str(e)`, where
`str` of an `HTTPException` is `"500: " + detail`. -/
def analyzeData (agent : String → List UFile → RunOutcome)
    (decode : List Nat → Except String String)
    (form : List (String × UFile)) : HttpResponse :=
  match findQuestion form with
  | none => HttpResponse.err 400 "questions.txt file is missing."
  | some q =>
    match decode (q.content.drop q.pos) with
    | Except.error e =>
      HttpResponse.err 500 ("An unexpected error occurred: " ++ e)
    | Except.ok question =>
      match agent question ({ q with pos := 0 } :: otherFiles form) with
      | RunOutcome.success r => HttpResponse.ok r
      | RunOutcome.error m =>
        HttpResponse.err 500 ("An unexpected error occurred: 500: " ++ m)

theorem sanitizeChar_word (c : Char) : isWordChar (sanitizeChar c) = true := by
  unfold sanitizeChar
  split
  · assumption
  · decide

theorem sanitizeChar_idem (c : Char) :
    sanitizeChar (sanitizeChar c) = sanitizeChar c := by
  by_cases h : isWordChar c = true
  · simp [sanitizeChar, h]
  · simp [sanitizeChar, h]

theorem all_word_map_sanitizeChar (l : List Char) :
    (l.map sanitizeChar).all isWordChar = true := by
  induction l with
  | nil => rfl
  | cons c cs ih => simp [List.all_cons, sanitizeChar_word, ih]

theorem map_sanitizeChar_idem (l : List Char) :
    (l.map sanitizeChar).map sanitizeChar = l.map sanitizeChar := by
  induction l with
  | nil => rfl
  | cons c cs ih => simp [sanitizeChar_idem, ih]

/-- C6: the variable name derived from a filename (agent.py 131) contains
only `[A-Za-z0-9_]` characters, is a pure function of the filename (equal
filenames give equal variable names), and sanitizing an already-sanitized
name leaves it unchanged. -/
theorem sanitize_spec (s t : String) (hst : s = t) :
    ((sanitize s).toList.all isWordChar = true)
    ∧ sanitize (sanitize s) = sanitize s
    ∧ sanitize s = sanitize t := by
  refine ⟨all_word_map_sanitizeChar s.toList, ?_, hst ▸ rfl⟩
  exact congrArg String.mk (map_sanitizeChar_idem s.toList)

/-- Witness for `sanitize_spec` at the concrete filename
`"sales-data.csv"`. -/
theorem sanitize_spec_witness :
    ((sanitize "sales-data.csv").toList.all isWordChar = true)
    ∧ sanitize (sanitize "sales-data.csv") = sanitize "sales-data.csv"
    ∧ sanitize "sales-data.csv" = sanitize "sales-data.csv" :=
  sanitize_spec "sales-data.csv" "sales-data.csv" rfl

mutual

theorem npFreeConvAux : ∀ v : PyVal, plainOnly v = true →
    npFree (convertToNativeTypes v) = true
  | PyVal.pyInt _, _ => rfl
  | PyVal.pyFloat _, _ => rfl
  | PyVal.pyBool _, _ => rfl
  | PyVal.pyStr _, _ => rfl
  | PyVal.pyNone, _ => rfl
  | PyVal.npInt _, _ => rfl
  | PyVal.npFloat _, _ => rfl
  | PyVal.npBool _, _ => rfl
  | PyVal.pyList xs, h => npFreeConvListAux xs h
  | PyVal.pyDict es, h => npFreeConvEntriesAux es h
  | PyVal.pyTuple _, h => nomatch h
  | PyVal.other _, h => nomatch h

theorem npFreeConvListAux : ∀ xs : List PyVal, plainOnlyList xs = true →
    npFreeList (convList xs) = true
  | [], _ => rfl
  | x :: xs, h => by
    have h1 : plainOnly x = true ∧ plainOnlyList xs = true := by
      simpa [plainOnlyList, Bool.and_eq_true] using h
    show (npFree (convertToNativeTypes x) && npFreeList (convList xs)) = true
    rw [npFreeConvAux x h1.1, npFreeConvListAux xs h1.2]
    rfl

theorem npFreeConvEntriesAux : ∀ es : List (String × PyVal),
    plainOnlyEntries es = true → npFreeEntries (convEntries es) = true
  | [], _ => rfl
  | (_, v) :: es, h => by
    have h1 : plainOnly v = true ∧ plainOnlyEntries es = true := by
      simpa [plainOnlyEntries, Bool.and_eq_true] using h
    show (npFree (convertToNativeTypes v) && npFreeEntries (convEntries es)) = true
    rw [npFreeConvAux v h1.1, npFreeConvEntriesAux es h1.2]
    rfl

end

/-- C4 amended: `_convert_to_native_types` recurses only through lists
and dict values; for a result built from scalars, lists and dicts alone
it converts every numpy scalar at every depth to a native primitive, so
no numpy scalar remains in the converted value.  (The original claim —
that this holds for every container — fails for tuples, see
`convert_tuple_counterexample`.) -/
theorem convert_result_np_free (v : PyVal) (h : plainOnly v = true) :
    npFree (convertToNativeTypes v) = true :=
  npFreeConvAux v h

/-- Witness for `convert_result_np_free` at a nested concrete value. -/
theorem convert_result_np_free_witness :
    plainOnly (PyVal.pyList [PyVal.npInt 3,
        PyVal.pyDict [("a", PyVal.npFloat 7)],
        PyVal.pyList [PyVal.npBool true]]) = true
    ∧ npFree (convertToNativeTypes (PyVal.pyList [PyVal.npInt 3,
        PyVal.pyDict [("a", PyVal.npFloat 7)],
        PyVal.pyList [PyVal.npBool true]])) = true :=
  ⟨rfl, convert_result_np_free _ rfl⟩

/-- C4 counterexample: a numpy float nested inside a tuple survives
`_convert_to_native_types` unchanged — the function only recurses into
lists and dicts, so a numeric-library scalar does remain inside the
returned result. -/
theorem convert_tuple_counterexample :
    convertToNativeTypes (PyVal.pyTuple [PyVal.npFloat 4607182418800017408])
      = PyVal.pyTuple [PyVal.npFloat 4607182418800017408]
    ∧ npFree (convertToNativeTypes
        (PyVal.pyTuple [PyVal.npFloat 4607182418800017408])) = false :=
  ⟨rfl, rfl⟩

theorem headMatches_of_append (a b s : List Char)
    (h : headMatches (a ++ b) s = true) : headMatches a s = true := by
  induction a generalizing s with
  | nil => rfl
  | cons c cs ih =>
    cases s with
    | nil => exact nomatch h
    | cons d ds =>
      simp only [List.cons_append, headMatches, Bool.and_eq_true] at h ⊢
      exact ⟨h.1, ih ds h.2⟩

theorem occursIn_of_append (a b s : List Char)
    (h : occursIn (a ++ b) s = true) : occursIn a s = true := by
  induction s with
  | nil => exact headMatches_of_append a b [] h
  | cons c cs ih =>
    simp only [occursIn, Bool.or_eq_true] at h ⊢
    rcases h with h | h
    · exact Or.inl (headMatches_of_append a b _ h)
    · exact Or.inr (ih h)

theorem splitFirst_isSome (pat s : List Char) :
    (splitFirst pat s).isSome = occursIn pat s := by
  induction s with
  | nil =>
    by_cases h : headMatches pat [] = true <;>
      simp [splitFirst, occursIn, h]
  | cons c cs ih =>
    by_cases h : headMatches pat (c :: cs) = true
    · simp [splitFirst, occursIn, h]
    · have hb : headMatches pat (c :: cs) = false := by
        cases hx : headMatches pat (c :: cs) <;> simp_all
      cases hs : splitFirst pat cs with
      | none =>
        rw [hs] at ih
        simp [splitFirst, occursIn, hb, hs, ← ih]
      | some pr =>
        rw [hs] at ih
        obtain ⟨hh, tt⟩ := pr
        simp [splitFirst, occursIn, hb, hs, ← ih]

/-- C5 amended: extraction of the script body (agent.py 81-82) behaves in
three cases.  If the response does not contain `"```python"`, the whole
response text is the script.  If it contains `"```python\n"`, the script
is the text between the first `"```python\n"` and the next `"\n```"` (or
the rest of the response when no `"\n```"` follows).  But if it contains
`"```python"` while containing `"```python\n"` nowhere, the indexing
`[1]` raises `IndexError` and no script is extracted at all — the attempt
fails (the original claim allows no such case, see
`extract_code_counterexample`). -/
theorem extract_code_cases (resp : String) :
    (occursIn fenceMark resp.toList = false → extractCode resp = some resp)
    ∧ (occursIn fenceMarkNl resp.toList = true →
        ∃ pre rest, splitFirst fenceMarkNl resp.toList = some (pre, rest)
          ∧ extractCode resp
              = some (String.mk (takeUntil fenceClose (takeUntil fenceMarkNl rest))))
    ∧ (occursIn fenceMark resp.toList = true →
        occursIn fenceMarkNl resp.toList = false → extractCode resp = none) := by
  refine ⟨fun h => ?_, fun h => ?_, fun hm hn => ?_⟩
  · have h2 : occursIn fenceMark resp.data = false := h
    simp [extractCode, h2]
  · have hm : occursIn fenceMark resp.toList = true := by
      have he : fenceMarkNl = fenceMark ++ ['\n'] := rfl
      exact occursIn_of_append _ _ _ (he ▸ h)
    have hs : (splitFirst fenceMarkNl resp.toList).isSome = true := by
      rw [splitFirst_isSome]; exact h
    rcases ho : splitFirst fenceMarkNl resp.toList with _ | ⟨pre, rest⟩
    · rw [ho] at hs; exact nomatch hs
    · refine ⟨pre, rest, rfl, ?_⟩
      have hm2 : occursIn fenceMark resp.data = true := hm
      have ho2 : splitFirst fenceMarkNl resp.data = some (pre, rest) := ho
      simp [extractCode, hm2, ho2]
  · have hs : splitFirst fenceMarkNl resp.toList = none := by
      have hi := splitFirst_isSome fenceMarkNl resp.toList
      rw [hn] at hi
      cases hq : splitFirst fenceMarkNl resp.toList with
      | none => rfl
      | some pr => rw [hq] at hi; exact nomatch hi
    have hm2 : occursIn fenceMark resp.data = true := hm
    have hs2 : splitFirst fenceMarkNl resp.data = none := hs
    simp [extractCode, hm2, hs2]

/-- C5 counterexample: the response `"a ```python b"` contains the
`"```python"` marker but no `"```python\n"`, so the extraction raises
`IndexError` and yields no script — neither the content of a fenced block
nor the entire response text is executed. -/
theorem extract_code_counterexample :
    extractCode "a ```python b" = none
    ∧ (none : Option String) ≠ some "a ```python b" :=
  ⟨rfl, by simp⟩

/-- Witness for `extract_code_cases`: on a well-formed fenced response
the extracted script is exactly the block content. -/
theorem extract_code_cases_witness :
    extractCode "Sure!\n```python\nresult = [1]\n```\nDone" = some "result = [1]"
    ∧ (∃ pre rest,
        splitFirst fenceMarkNl ("Sure!\n```python\nresult = [1]\n```\nDone").toList
          = some (pre, rest)
        ∧ extractCode "Sure!\n```python\nresult = [1]\n```\nDone"
            = some (String.mk (takeUntil fenceClose (takeUntil fenceMarkNl rest)))) :=
  ⟨rfl, (extract_code_cases "Sure!\n```python\nresult = [1]\n```\nDone").2.1 rfl⟩

theorem dictGet_insert_self (d : List (String × ScopeVal)) (k : String)
    (v : ScopeVal) : dictGet (dictInsert d k v) k = some v := by
  induction d with
  | nil => simp [dictInsert, dictGet]
  | cons kv rest ih =>
    obtain ⟨k₀, v₀⟩ := kv
    by_cases h : k₀ = k
    · simp [dictInsert, dictGet, h]
    · simp [dictInsert, dictGet, h, ih]

theorem dictGet_insert_other (d : List (String × ScopeVal))
    (k₁ k : String) (v : ScopeVal) (h : k₁ ≠ k) :
    dictGet (dictInsert d k₁ v) k = dictGet d k := by
  induction d with
  | nil => simp [dictInsert, dictGet, h]
  | cons kv rest ih =>
    obtain ⟨k₀, v₀⟩ := kv
    by_cases h0 : k₀ = k₁
    · subst h0
      simp [dictInsert, dictGet, h]
    · by_cases hk : k₀ = k <;> simp [dictInsert, dictGet, h0, hk, ih, Ne.symm h]

theorem dictGet_none_of_not_mem (d : List (String × ScopeVal)) (k : String)
    (h : k ∉ d.map Prod.fst) : dictGet d k = none := by
  induction d with
  | nil => rfl
  | cons kv rest ih =>
    obtain ⟨k₀, v₀⟩ := kv
    simp only [List.map_cons, List.mem_cons, not_or] at h
    have hne : k₀ ≠ k := fun he => h.1 he.symm
    simp [dictGet, hne, ih h.2]

theorem updateDict_get_of_none (fc : List (String × ScopeVal)) :
    ∀ d k, dictGet fc k = none →
      dictGet (updateDict d fc) k = dictGet d k := by
  induction fc with
  | nil => intro d k _; rfl
  | cons kv rest ih =>
    intro d k h
    obtain ⟨k₀, v₀⟩ := kv
    by_cases he : k₀ = k
    · simp [dictGet, he] at h
    · have hr : dictGet rest k = none := by simpa [dictGet, he] using h
      show dictGet (updateDict (dictInsert d k₀ v₀) rest) k = dictGet d k
      rw [ih (dictInsert d k₀ v₀) k hr, dictGet_insert_other d k₀ k v₀ he]

theorem updateDict_get_of_some (fc : List (String × ScopeVal)) :
    ∀ d k v, (fc.map Prod.fst).Nodup → dictGet fc k = some v →
      dictGet (updateDict d fc) k = some v := by
  induction fc with
  | nil => intro d k v _ h; exact nomatch h
  | cons kv rest ih =>
    intro d k v hnd h
    obtain ⟨k₀, v₀⟩ := kv
    simp only [List.map_cons, List.nodup_cons] at hnd
    by_cases he : k₀ = k
    · subst he
      have hv : v₀ = v := by simpa [dictGet] using h
      subst hv
      have hr : dictGet rest k₀ = none :=
        dictGet_none_of_not_mem rest k₀ hnd.1
      show dictGet (updateDict (dictInsert d k₀ v₀) rest) k₀ = some v₀
      rw [updateDict_get_of_none rest (dictInsert d k₀ v₀) k₀ hr,
        dictGet_insert_self d k₀ v₀]
    · have hr : dictGet rest k = some v := by simpa [dictGet, he] using h
      show dictGet (updateDict (dictInsert d k₀ v₀) rest) k = some v
      exact ih (dictInsert d k₀ v₀) k v hnd.2 hr

/-- C3 amended: the execution scope built by `_create_execution_scope`
(agent.py 143-153) is the fixed dict of the ten enumerated capability
bindings plus `result = None`, with the file-context entries assigned on
top of it.  On every key, the scope holds the file-context value when one
exists, and the fixed binding otherwise; in particular `result` is
pre-seeded to `None` whenever no file-context variable is itself named
`result`.  (The original claim — that the scope always contains all the
fixed capability bindings and a `result` seed — fails when a file-context
name collides with one of them: `scope.update(file_context)` overwrites
the binding, see `execution_scope_counterexample`.  Freshness holds by
construction: the scope passed to `exec` at each attempt is
`createExecutionScope fc`, recomputed from the file context alone.) -/
theorem execution_scope_spec (fc : List (String × ScopeVal))
    (hnd : (fc.map Prod.fst).Nodup) :
    (∀ k v, dictGet fc k = some v →
        dictGet (createExecutionScope fc) k = some v)
    ∧ (∀ k, dictGet fc k = none →
        dictGet (createExecutionScope fc) k = dictGet baseScope k)
    ∧ (dictGet fc "result" = none →
        dictGet (createExecutionScope fc) "result" = some ScopeVal.pyNone) :=
  ⟨fun k v h => updateDict_get_of_some fc baseScope k v hnd h,
   fun k h => updateDict_get_of_none fc baseScope k h,
   fun h => (updateDict_get_of_none fc baseScope "result" h).trans rfl⟩

/-- Witness for `execution_scope_spec` with one ordinary file-context
variable: the variable is bound and `result` is still seeded to `None`. -/
theorem execution_scope_spec_witness :
    dictGet (createExecutionScope
        [("sales_csv", ScopeVal.table ⟨[["10"], ["20"]]⟩)]) "sales_csv"
      = some (ScopeVal.table ⟨[["10"], ["20"]]⟩)
    ∧ dictGet (createExecutionScope
        [("sales_csv", ScopeVal.table ⟨[["10"], ["20"]]⟩)]) "result"
      = some ScopeVal.pyNone :=
  ⟨(execution_scope_spec _ (by decide)).1 "sales_csv" _ rfl,
   (execution_scope_spec _ (by decide)).2.2 rfl⟩

/-- C3 counterexample: a file whose sanitized name is `np` (for example
an uploaded file literally named `np`) makes `scope.update(file_context)`
replace the numpy capability binding, so the scope does not contain the
fixed enumerated binding for `np`. -/
theorem execution_scope_counterexample :
    dictGet (createExecutionScope [("np", ScopeVal.buffer [0])]) "np"
      = some (ScopeVal.buffer [0])
    ∧ some (ScopeVal.buffer [0]) ≠ some (ScopeVal.lib "numpy") :=
  ⟨rfl, by simp⟩

theorem fileStep_skip (parse : List Nat → Except String Table)
    (ctx : List (String × ScopeVal)) (f : UFile)
    (hcsv : hasCsvSuffix f.filename = true)
    (herr : ∃ e, parse (f.content.drop f.pos) = Except.error e) :
    fileStep parse ctx f = ctx := by
  obtain ⟨e, he⟩ := herr
  simp [fileStep, processFile, hcsv, he]

/-- C7: when `pd.read_csv` raises on a single uploaded `.csv` file, the
`except` clause of `_prepare_file_context` (agent.py 139-140) swallows the
error: that file is omitted from the file-context mapping and the context
built from the remaining files — before and after it, in order — is
exactly the context built without the failing file.  Preparation itself
never raises (in the embedding it is a total function). -/
theorem prepare_omits_failing (parse : List Nat → Except String Table)
    (pre post : List UFile) (f : UFile)
    (hcsv : hasCsvSuffix f.filename = true)
    (herr : ∃ e, parse (f.content.drop f.pos) = Except.error e) :
    prepareCtx parse (pre ++ f :: post) = prepareCtx parse (pre ++ post) := by
  unfold prepareCtx
  rw [List.foldl_append, List.foldl_append, List.foldl_cons,
    fileStep_skip parse _ f hcsv herr]

/-- Witness for `prepare_omits_failing`: a failing `.csv` between two
text files contributes nothing. -/
theorem prepare_omits_failing_witness :
    prepareCtx (fun _ => Except.error "ParserError: bad data")
        [⟨"a.txt", [1], 0⟩, ⟨"bad.csv", [9], 0⟩, ⟨"b.txt", [2], 0⟩]
      = prepareCtx (fun _ => Except.error "ParserError: bad data")
        [⟨"a.txt", [1], 0⟩, ⟨"b.txt", [2], 0⟩] :=
  prepare_omits_failing _ [⟨"a.txt", [1], 0⟩] [⟨"b.txt", [2], 0⟩]
    ⟨"bad.csv", [9], 0⟩ rfl ⟨"ParserError: bad data", rfl⟩

/-- C8 amended: after `_prepare_file_context`, the stream position of a
file is reset to the start in exactly the cases where the per-file `try`
block completed: always for a non-`.csv` file, and for a `.csv` file
whose parse succeeded.  A `.csv` file whose parse raises never reaches
`file.file.seek(0)` (agent.py 138 is skipped by the exception), so its
stream is left at end-of-file — the preceding `read()` consumed it.
(The original claim — every file is reset — fails there, see
`filepos_counterexample`.) -/
theorem filepos_after_prepare (parse : List Nat → Except String Table)
    (f : UFile) :
    (hasCsvSuffix f.filename = false → finalPos parse f = 0)
    ∧ (∀ t, parse (f.content.drop f.pos) = Except.ok t → finalPos parse f = 0)
    ∧ (hasCsvSuffix f.filename = true →
        ∀ e, parse (f.content.drop f.pos) = Except.error e →
          finalPos parse f = f.content.length) := by
  refine ⟨fun h => ?_, fun t h => ?_, fun hc e h => ?_⟩
  · simp [finalPos, processFile, h]
  · by_cases hc : hasCsvSuffix f.filename <;>
      simp [finalPos, processFile, hc, h]
  · simp [finalPos, processFile, hc, h]

/-- C8 counterexample: a three-byte `.csv` file whose parse raises is
left with its read position at end-of-file (3), not reset to the
start. -/
theorem filepos_counterexample :
    finalPos (fun _ => Except.error "ParserError: no columns to parse")
        ⟨"data.csv", [10, 20, 30], 0⟩ = 3
    ∧ (3 : Nat) ≠ 0 :=
  ⟨rfl, by simp⟩

/-- Witness for `filepos_after_prepare`: a non-`.csv` file is reset to
the start. -/
theorem filepos_after_prepare_witness :
    finalPos (fun _ => Except.error "ParserError: no columns to parse")
        ⟨"notes.txt", [5, 6], 0⟩ = 0 :=
  (filepos_after_prepare _ _).1 rfl

theorem findQuestion_none (form : List (String × UFile)) :
    ∀ acc : Option UFile, (∀ kv ∈ form, kv.1 ≠ questionFieldKey) →
      form.foldl
        (fun acc kv => if kv.1 = questionFieldKey then some kv.2 else acc) acc
        = acc := by
  induction form with
  | nil => intro acc _; rfl
  | cons kv rest ih =>
    intro acc h
    rw [List.foldl_cons, if_neg (h kv (List.mem_cons_self kv rest))]
    exact ih acc (fun kv₁ hm => h kv₁ (List.mem_cons_of_mem kv hm))

/-- C9: when no form field named `questions.txt` is present, the handler
raises `HTTPException(400, "questions.txt file is missing.")` (main.py
43-45) before anything else runs — the result is this 400 response for
every agent and every decoder, so the generation-execution loop is never
started. -/
theorem missing_question_text_400 (agent : String → List UFile → RunOutcome)
    (decode : List Nat → Except String String)
    (form : List (String × UFile))
    (h : ∀ kv ∈ form, kv.1 ≠ questionFieldKey) :
    analyzeData agent decode form
      = HttpResponse.err 400 "questions.txt file is missing." := by
  have hq : findQuestion form = none := findQuestion_none form none h
  simp [analyzeData, hq]

/-- Witness for `missing_question_text_400`: a request holding only a
data file field. -/
theorem missing_question_text_400_witness :
    analyzeData (fun _ _ => RunOutcome.error "never reached")
        (fun _ => Except.error "never decoded")
        [("data", ⟨"numbers.csv", [1, 2], 0⟩)]
      = HttpResponse.err 400 "questions.txt file is missing." :=
  missing_question_text_400 _ _ _ (by decide)

theorem processFile_key (parse : List Nat → Except String Table) (f : UFile)
    (k : String) (v : ScopeVal)
    (h : (processFile parse f).1 = some (k, v)) : k = sanitize f.filename := by
  by_cases hc : hasCsvSuffix f.filename
  · cases hp : parse (f.content.drop f.pos) with
    | ok t =>
      simp [processFile, hc, hp] at h
      exact h.1.symm
    | error e => simp [processFile, hc, hp] at h
  · simp [processFile, hc] at h
    exact h.1.symm

theorem foldl_fileStep_get (parse : List Nat → Except String Table)
    (rest : List UFile) :
    ∀ ctx k, (∀ f ∈ rest, sanitize f.filename ≠ k) →
      dictGet (rest.foldl (fileStep parse) ctx) k = dictGet ctx k := by
  induction rest with
  | nil => intro ctx k _; rfl
  | cons f fs ih =>
    intro ctx k h
    rw [List.foldl_cons, ih _ k (fun g hg => h g (List.mem_cons_of_mem f hg))]
    cases hp : (processFile parse f).1 with
    | none => simp [fileStep, hp]
    | some kv =>
      obtain ⟨k₁, v⟩ := kv
      have hk : k₁ = sanitize f.filename := processFile_key parse f k₁ v hp
      have hne : k₁ ≠ k := hk ▸ h f (List.mem_cons_self f fs)
      simp [fileStep, hp, dictGet_insert_other ctx k₁ k v hne]

/-- C10 amended: when the form holds a question part `q`, the handler
prepends `q` (stream reset to the start) to the files handed to
file-context preparation (main.py 47), and — provided the question's
filename does not end in `.csv` and no other uploaded file shares its
sanitized variable name — the execution-scope file context binds the
question's sanitized filename to a raw byte buffer of the question text.
(The unqualified claim fails: a later file with the same sanitized name
overwrites the binding, see `question_binding_counterexample`; an
unparseable `.csv`-named question is omitted entirely.) -/
theorem question_file_prepended (parse : List Nat → Except String Table)
    (form : List (String × UFile)) (q : UFile)
    (hq : findQuestion form = some q)
    (hncsv : hasCsvSuffix q.filename = false)
    (hnocol : ∀ f ∈ otherFiles form,
        sanitize f.filename ≠ sanitize q.filename) :
    handlerFiles form = some ({ q with pos := 0 } :: otherFiles form)
    ∧ dictGet (prepareCtx parse ({ q with pos := 0 } :: otherFiles form))
        (sanitize q.filename)
      = some (ScopeVal.buffer q.content) := by
  constructor
  · simp [handlerFiles, hq]
  · unfold prepareCtx
    rw [List.foldl_cons, foldl_fileStep_get parse (otherFiles form) _ _ hnocol]
    simp [fileStep, processFile, hncsv, dictGet_insert_self]

/-- Witness for `question_file_prepended`: a question part plus one
data file with a distinct name; the question text is bound in the
context. -/
theorem question_file_prepended_witness :
    handlerFiles [("questions.txt", ⟨"questions.txt", [1, 2], 0⟩),
        ("data", ⟨"d.txt", [3], 0⟩)]
      = some [⟨"questions.txt", [1, 2], 0⟩, ⟨"d.txt", [3], 0⟩]
    ∧ dictGet (prepareCtx (fun _ => Except.error "unused")
          [⟨"questions.txt", [1, 2], 0⟩, ⟨"d.txt", [3], 0⟩])
        (sanitize "questions.txt")
      = some (ScopeVal.buffer [1, 2]) :=
  question_file_prepended _
    [("questions.txt", ⟨"questions.txt", [1, 2], 0⟩), ("data", ⟨"d.txt", [3], 0⟩)]
    ⟨"questions.txt", [1, 2], 0⟩ rfl rfl (by decide)

/-- C10 counterexample: a second uploaded file whose filename is also
`questions.txt` (under a different form field) sanitizes to the same
variable name; its buffer overwrites the question's binding, so the
question text is not bound in the execution scope. -/
theorem question_binding_counterexample :
    handlerFiles [("questions.txt", ⟨"questions.txt", [1], 0⟩),
        ("data", ⟨"questions.txt", [2], 0⟩)]
      = some [⟨"questions.txt", [1], 0⟩, ⟨"questions.txt", [2], 0⟩]
    ∧ dictGet (prepareCtx (fun _ => Except.error "unused")
          [⟨"questions.txt", [1], 0⟩, ⟨"questions.txt", [2], 0⟩])
        (sanitize "questions.txt")
      = some (ScopeVal.buffer [2])
    ∧ ScopeVal.buffer [2] ≠ ScopeVal.buffer [1] :=
  ⟨rfl, rfl, by simp⟩

theorem loopFrom_all_error (env : Nat → AttemptEnv) (maxRetries : Nat)
    (fc : List (String × ScopeVal)) (tlast : String)
    (hlast : attemptExec env fc (maxRetries - 1) = Except.error tlast)
    (i : Nat) (hi : i < maxRetries)
    (hall : ∀ j, i ≤ j → j < maxRetries →
      ∃ t, attemptExec env fc j = Except.error t) :
    loopFrom env maxRetries fc i
      = (RunOutcome.error (exhaustMsg maxRetries ++ tlast), maxRetries - i) := by
  obtain ⟨t, ht⟩ := hall i (Nat.le_refl i) hi
  by_cases hl : i = maxRetries - 1
  · subst hl
    rw [loopFrom.eq_def, dif_pos hi, hlast]
    have h1 : maxRetries - (maxRetries - 1) = 1 := by omega
    simp [h1]
  · have hi1 : i + 1 < maxRetries := by omega
    have ih := loopFrom_all_error env maxRetries fc tlast hlast (i + 1) hi1
      (fun j hj1 hj2 => hall j (by omega) hj2)
    rw [loopFrom.eq_def, dif_pos hi, ht]
    have h2 : maxRetries - (i + 1) + 1 = maxRetries - i := by omega
    simp [hl, ih, h2]
termination_by maxRetries - i
decreasing_by omega

/-- C1: when every attempt raises (the model call, the extraction or the
executed script), the loop of `DataAnalystAgent.run` performs exactly
`max_retries` iterations and returns the error outcome whose message is
the final attempt's error trace prefixed with
`"Agent failed after N attempts. Last error: "` (agent.py 101-103). -/
theorem run_exhausts_retries (env : Nat → AttemptEnv) (maxRetries : Nat)
    (fc : List (String × ScopeVal)) (tlast : String)
    (hpos : 0 < maxRetries)
    (hall : ∀ j, j < maxRetries → ∃ t, attemptExec env fc j = Except.error t)
    (hlast : attemptExec env fc (maxRetries - 1) = Except.error tlast) :
    loopFrom env maxRetries fc 0
      = (RunOutcome.error (exhaustMsg maxRetries ++ tlast), maxRetries) := by
  have h := loopFrom_all_error env maxRetries fc tlast hlast 0 hpos
    (fun j _ hj => hall j hj)
  simpa using h

/-- Witness for `run_exhausts_retries`: an oracle whose script always
raises `ValueError`, with the default `max_retries = 3`. -/
theorem run_exhausts_retries_witness :
    loopFrom (fun _ => ⟨Except.ok "raise ValueError",
        fun _ _ => Except.error "ValueError: boom"⟩) 3 [] 0
      = (RunOutcome.error (exhaustMsg 3 ++ "ValueError: boom"), 3)
    ∧ exhaustMsg 3 = "Agent failed after 3 attempts. Last error: " :=
  ⟨run_exhausts_retries _ 3 [] "ValueError: boom" (by omega)
      (fun j _ => ⟨"ValueError: boom", rfl⟩) rfl,
   by decide⟩

theorem loopFrom_success_at (env : Nat → AttemptEnv) (maxRetries : Nat)
    (fc : List (String × ScopeVal)) (k : Nat) (v : PyVal)
    (hok : attemptExec env fc k = Except.ok v) (hk : k < maxRetries)
    (i : Nat) (hik : i ≤ k)
    (hprev : ∀ j, i ≤ j → j < k →
      ∃ t, attemptExec env fc j = Except.error t) :
    loopFrom env maxRetries fc i
      = (RunOutcome.success (convertToNativeTypes v), k + 1 - i) := by
  by_cases hik2 : i = k
  · subst hik2
    rw [loopFrom.eq_def, dif_pos hk, hok]
    have h1 : i + 1 - i = 1 := by omega
    simp [h1]
  · have hilt : i < k := by omega
    obtain ⟨t, ht⟩ := hprev i (Nat.le_refl i) hilt
    have him : i < maxRetries := by omega
    have hne : i ≠ maxRetries - 1 := by omega
    have ih := loopFrom_success_at env maxRetries fc k v hok hk (i + 1)
      (by omega) (fun j hj1 hj2 => hprev j (by omega) hj2)
    rw [loopFrom.eq_def, dif_pos him, ht]
    have h2 : k + 1 - (i + 1) + 1 = k + 1 - i := by omega
    simp [hne, ih, h2]
    omega
termination_by k - i
decreasing_by omega

/-- C2: if attempts before `k` raise and the script of attempt
`k < max_retries` runs to completion, the loop of `DataAnalystAgent.run`
returns immediately at attempt `k` (it performs exactly `k + 1`
iterations, none after `k`) with the success outcome carrying the value
bound to `result` after `_convert_to_native_types` (agent.py 86-95). -/
theorem run_success_at (env : Nat → AttemptEnv) (maxRetries : Nat)
    (fc : List (String × ScopeVal)) (k : Nat) (v : PyVal)
    (hk : k < maxRetries)
    (hprev : ∀ j, j < k → ∃ t, attemptExec env fc j = Except.error t)
    (hok : attemptExec env fc k = Except.ok v) :
    loopFrom env maxRetries fc 0
      = (RunOutcome.success (convertToNativeTypes v), k + 1) := by
  have h := loopFrom_success_at env maxRetries fc k v hok hk 0 (Nat.zero_le k)
    (fun j _ hj => hprev j hj)
  simpa using h

/-- Witness for `run_success_at`: the model call of attempt 0 raises, the
fenced script of attempt 1 succeeds binding `result = [np.int64 1]`; the
loop stops after 2 of 3 attempts and converts the numpy scalar. -/
theorem run_success_at_witness :
    loopFrom (fun i =>
        if i = 0 then
          ⟨Except.error "TimeoutError: model call failed",
            fun _ _ => Except.error "unreached"⟩
        else
          ⟨Except.ok "```python\nresult = [1]\n```",
            fun _ _ => Except.ok (PyVal.pyList [PyVal.npInt 1])⟩) 3 [] 0
      = (RunOutcome.success (convertToNativeTypes (PyVal.pyList [PyVal.npInt 1])), 2)
    ∧ convertToNativeTypes (PyVal.pyList [PyVal.npInt 1])
        = PyVal.pyList [PyVal.pyInt 1] :=
  ⟨run_success_at _ 3 [] 1 _ (by omega)
      (fun j hj => ⟨"TimeoutError: model call failed", by
        have hj0 : j = 0 := by omega
        subst hj0
        rfl⟩)
      rfl,
   rfl⟩
